import Mathlib

/-!
Shallow embedding of the mini-ledger parser (src/parser.rs and
src/parser/mod.rs).  Parsers are functions from the remaining input
(`List Char`) to a result that is either a success with a remainder and a
value, a recoverable nom-style error, or a Rust panic (from `unwrap()` on
a failed conversion).

The nom combinators used by the source operate with nom's default error
type `nom::error::Error<&str>`, which records only an `ErrorKind`; in
particular `map_res` discards the external error (such as
`ParseError::DateOutOfRange`) and records `ErrorKind::MapRes`.  The
embedding mirrors this: `PErr.custom` exists so that the spec's claims
about `ParseError` kinds can be stated, but, as in the source, no
combinator ever produces it.
-/

/-- The repository's error taxonomy (`enum ParseError` in src/parser.rs). -/
inductive ParseError where
  | DateFormat
  | DateOutOfRange
  | BeginningLine
  | UnclosedCode
  | MissingAccount
  | DupUnit
deriving DecidableEq, Repr

/-- The nom `ErrorKind`s reachable from the combinators used by the source. -/
inductive NomKind where
  | charK
  | oneOf
  | digit
  | takeUntil
  | takeWhile1
  | tagK
  | mapRes
  | space
  | crlf
  | many0Count
  | many1K
deriving DecidableEq, Repr

/-- A parse error as the caller sees it: either a nom error kind (what the
default nom error type records) or a repository `ParseError` (never actually
produced by the combinators, mirroring the source, where `map_res` discards
the external error). -/
inductive PErr where
  | nomE : NomKind → PErr
  | custom : ParseError → PErr
deriving DecidableEq, Repr

/-- Outcome of running a parser: success with remainder and value, a
recoverable error, or a Rust panic (`unwrap()` on a failed conversion). -/
inductive PResult (α : Type) where
  | ok : List Char → α → PResult α
  | err : PErr → PResult α
  | panicked : PResult α
deriving DecidableEq, Repr

def Parser (α : Type) : Type := List Char → PResult α

/-- nom `map`. -/
def pmap {α β : Type} (p : Parser α) (f : α → β) : Parser β := fun cs =>
  match p cs with
  | .ok rest a => .ok rest (f a)
  | .err e => .err e
  | .panicked => .panicked

/-- Sequencing, used to embed nom `tuple`. -/
def pbind {α β : Type} (p : Parser α) (f : α → Parser β) : Parser β := fun cs =>
  match p cs with
  | .ok rest a => f a rest
  | .err e => .err e
  | .panicked => .panicked

/-- nom `preceded`. -/
def precededP {α β : Type} (p : Parser α) (q : Parser β) : Parser β :=
  pbind p (fun _ => q)

/-- nom `opt`: backtracks on a recoverable error, consuming nothing. -/
def popt {α : Type} (p : Parser α) : Parser (Option α) := fun cs =>
  match p cs with
  | .ok rest a => .ok rest (some a)
  | .err _ => .ok cs none
  | .panicked => .panicked

/-- nom `alt` of two branches: with nom's default error type, when both
branches fail the second branch's error is returned. -/
def altP {α : Type} (p q : Parser α) : Parser α := fun cs =>
  match p cs with
  | .err _ => q cs
  | r => r

/-- nom `char(c)`. -/
def pchar (c : Char) : Parser Char := fun cs =>
  match cs with
  | c2 :: rest => if c2 = c then .ok rest c else .err (.nomE .charK)
  | [] => .err (.nomE .charK)

/-- nom `one_of(s)`. -/
def one_of (s : List Char) : Parser Char := fun cs =>
  match cs with
  | c :: rest => if c ∈ s then .ok rest c else .err (.nomE .oneOf)
  | [] => .err (.nomE .oneOf)

/-- nom `take_while(f)`: always succeeds. -/
def take_while (f : Char → Bool) : Parser (List Char) := fun cs =>
  .ok (cs.dropWhile f) (cs.takeWhile f)

/-- nom `take_while1(f)`; the error kind depends on the wrapper
(`TakeWhile1` for raw `take_while1`, `Digit` for `digit1`, `Space` for
`space1`). -/
def take_while1 (f : Char → Bool) (k : NomKind) : Parser (List Char) := fun cs =>
  match cs.takeWhile f with
  | [] => .err (.nomE k)
  | t => .ok (cs.dropWhile f) t

def digit1 : Parser (List Char) := take_while1 Char.isDigit .digit

def isSpaceTab (c : Char) : Bool := c = ' ' || c = '\t'

def space0 : Parser (List Char) := take_while isSpaceTab

def space1 : Parser (List Char) := take_while1 isSpaceTab .space

/-- nom `take_until(t)` for the one-character tag `")"` used by the source:
consumes everything before the first occurrence of `c`, failing when `c`
does not occur in the remaining input (anywhere, not just the current
line). -/
def take_until_char (c : Char) : Parser (List Char) := fun cs =>
  match cs.dropWhile (· != c) with
  | [] => .err (.nomE .takeUntil)
  | rest => .ok rest (cs.takeWhile (· != c))

/-- nom `tag(t)`. -/
def ptag (t : List Char) : Parser (List Char) := fun cs =>
  if t.isPrefixOf cs then .ok (cs.drop t.length) t else .err (.nomE .tagK)

/-- nom `line_ending`: `"\n"` or `"\r\n"`. -/
def line_ending : Parser (List Char) := fun cs =>
  match cs with
  | c :: rest =>
    if c = '\n' then .ok rest ['\n']
    else if c = '\r' then
      match rest with
      | c2 :: rest2 => if c2 = '\n' then .ok rest2 ['\r', '\n'] else .err (.nomE .crlf)
      | [] => .err (.nomE .crlf)
    else .err (.nomE .crlf)
  | [] => .err (.nomE .crlf)

/-- nom `recognize(p)`: returns the consumed prefix of the input. -/
def recognizeP {α : Type} (p : Parser α) : Parser (List Char) := fun cs =>
  match p cs with
  | .ok rest _ => .ok rest (cs.take (cs.length - rest.length))
  | .err e => .err e
  | .panicked => .panicked

/-- Loop of nom `many0_count`.  The fuel is always at least the length of
the remaining input plus one, and each iteration must strictly consume
(nom errors out on a zero-length match), so the fuel-exhaustion branch is
unreachable. -/
def many0_count_go {α : Type} (p : Parser α) : Nat → List Char → PResult Nat
  | 0, _ => .err (.nomE .many0Count)
  | Nat.succ fuel, cs =>
    match p cs with
    | .err _ => .ok cs 0
    | .panicked => .panicked
    | .ok rest _ =>
      if rest.length < cs.length then
        match many0_count_go p fuel rest with
        | .ok r n => .ok r (n + 1)
        | .err e => .err e
        | .panicked => .panicked
      else .err (.nomE .many0Count)

/-- nom `many0_count`. -/
def many0_count {α : Type} (p : Parser α) : Parser Nat := fun cs =>
  many0_count_go p (cs.length + 1) cs

/-- Loop of nom `many1` after the first mandatory match (a `many0`-style
accumulator with nom's zero-length-match check). -/
def many1_go {α : Type} (p : Parser α) : Nat → List Char → PResult (List α)
  | 0, _ => .err (.nomE .many1K)
  | Nat.succ fuel, cs =>
    match p cs with
    | .err _ => .ok cs []
    | .panicked => .panicked
    | .ok rest a =>
      if rest.length < cs.length then
        match many1_go p fuel rest with
        | .ok r as => .ok r (a :: as)
        | .err e => .err e
        | .panicked => .panicked
      else .err (.nomE .many1K)

/-- nom `many1`. -/
def many1P {α : Type} (p : Parser α) : Parser (List α) := fun cs =>
  match p cs with
  | .err e => .err e
  | .panicked => .panicked
  | .ok rest a =>
    if rest.length < cs.length then
      match many1_go p (rest.length + 1) rest with
      | .ok r as => .ok r (a :: as)
      | .err e => .err e
      | .panicked => .panicked
    else .err (.nomE .many1K)

/-!
Data model (src/parser.rs).  Borrowed `&str` slices become `List Char`.
-/

/-- chrono `NaiveDate`, as the triple it validates on construction. -/
structure NaiveDate where
  year : Int
  month : Nat
  day : Nat
deriving DecidableEq, Repr

/-- Gregorian leap-year rule (as used by chrono). -/
def isLeapYear (y : Int) : Bool :=
  (y % 4 == 0 && y % 100 != 0) || (y % 400 == 0)

def daysInMonth (y : Int) (m : Nat) : Nat :=
  if m = 2 then (if isLeapYear y then 29 else 28)
  else if m = 4 ∨ m = 6 ∨ m = 9 ∨ m = 11 then 30
  else 31

/-- chrono `NaiveDate::from_ymd_opt`: `Some` exactly when the triple is a
real calendar date within chrono's representable year range
(`i32::MIN >> 13` to `i32::MAX >> 13`). -/
def NaiveDate.fromYmdOpt (y : Int) (m d : Nat) : Option NaiveDate :=
  if -262144 ≤ y ∧ y ≤ 262143 ∧ 1 ≤ m ∧ m ≤ 12 ∧ 1 ≤ d ∧ d ≤ daysInMonth y m
  then some ⟨y, m, d⟩ else none

/-- Calendar validity of a constructed `NaiveDate` (the condition checked
by `NaiveDate.fromYmdOpt`). -/
def NaiveDate.valid (d : NaiveDate) : Prop :=
  -262144 ≤ d.year ∧ d.year ≤ 262143 ∧ 1 ≤ d.month ∧ d.month ≤ 12 ∧
    1 ≤ d.day ∧ d.day ≤ daysInMonth d.year d.month

/-- Numeric value of a run of ASCII digits. -/
def digitsToNat (ds : List Char) : Nat :=
  ds.foldl (fun a c => a * 10 + (c.toNat - 48)) 0

/-- Rust `str::parse::<i32>()` on the all-digit strings produced by
`digit1`: the value when it fits in `i32`, `none` (an `Err`) otherwise. -/
def parseI32Digits (ds : List Char) : Option Int :=
  if digitsToNat ds ≤ 2147483647 then some (digitsToNat ds : Int) else none

/-- Rust `str::parse::<u32>()` on the all-digit strings produced by
`digit1`. -/
def parseU32Digits (ds : List Char) : Option Nat :=
  if digitsToNat ds ≤ 4294967295 then some (digitsToNat ds) else none

/-- A Rust computation that either produces a value or panics. -/
inductive PanicOr (α : Type) where
  | panicked : PanicOr α
  | value : α → PanicOr α
deriving DecidableEq, Repr

/-- `struct RawDate` (src/parser.rs). -/
structure RawDate where
  year : List Char
  month : List Char
  day : List Char
deriving DecidableEq, Repr

def RawDate.from_ymd (y m d : List Char) : RawDate := ⟨y, m, d⟩

def RawDate.from_triple (t : List Char × List Char × List Char) : RawDate :=
  RawDate.from_ymd t.1 t.2.1 t.2.2

/-- `RawDate::into_naive_date`: the source calls `.parse().unwrap()` on each
component, so an out-of-range digit run is a panic, not an `Err`; a
calendar-invalid triple is `Err(ParseError::DateOutOfRange)`. -/
def RawDate.into_naive_date (r : RawDate) : PanicOr (Except ParseError NaiveDate) :=
  match parseI32Digits r.year, parseU32Digits r.month, parseU32Digits r.day with
  | some y, some m, some d =>
    .value (match NaiveDate.fromYmdOpt y m d with
      | some nd => .ok nd
      | none => .error ParseError.DateOutOfRange)
  | _, _, _ => .panicked

/-- `enum Status` (src/parser.rs). -/
inductive Status where
  | Cleared
  | Pending
  | Uncleared
deriving DecidableEq, Repr

/-- rust_decimal `Decimal`: sign, 96-bit mantissa, scale between 0 and 28. -/
structure Decimal where
  neg : Bool
  mantissa : Nat
  scale : Nat
deriving DecidableEq, Repr

/-- rust_decimal `Decimal::from_str` restricted to the token shapes the
recognizers emit (optional sign, digits, optional dot and digits): errors
on an empty digit run, a stray character, a mantissa overflowing 96 bits,
or a scale above 28. -/
def Decimal.fromStr (cs : List Char) : Option Decimal :=
  let signRest : Bool × List Char :=
    match cs with
    | '+' :: r => (false, r)
    | '-' :: r => (true, r)
    | r => (false, r)
  let intPart := signRest.2.takeWhile Char.isDigit
  let rest2 := signRest.2.dropWhile Char.isDigit
  if intPart = [] then none
  else
    match rest2 with
    | [] =>
      if digitsToNat intPart < 2 ^ 96 then some ⟨signRest.1, digitsToNat intPart, 0⟩
      else none
    | '.' :: frac =>
      if frac ≠ [] ∧ frac.all Char.isDigit ∧ frac.length ≤ 28 ∧
          digitsToNat (intPart ++ frac) < 2 ^ 96
      then some ⟨signRest.1, digitsToNat (intPart ++ frac), frac.length⟩
      else none
    | _ => none

/-- `struct Amount` (src/parser.rs). -/
structure Amount where
  price : Decimal
  unit : List Char
deriving DecidableEq, Repr

/-- `Amount::from_str`: parses the price with rust_decimal; `none` models
`Err(rust_decimal::Error)`. -/
def Amount.from_str (price unitStr : List Char) : Option Amount :=
  (Decimal.fromStr price).map (fun d => ⟨d, unitStr⟩)

/-- `Amount::dollar`: unit fixed to `"$"`. -/
def Amount.dollar (price : List Char) : Option Amount :=
  Amount.from_str price ['$']

/-- `struct TransactionHeader` (src/parser.rs). -/
structure TransactionHeader where
  date : NaiveDate
  edate : Option NaiveDate
  status : Status
  code : Option (List Char)
  description : List Char
  comment : Option (List Char)
deriving DecidableEq, Repr

/-- `struct Posting` (src/parser.rs). -/
structure Posting where
  account : List Char
  amount : Option Amount
  assign : Option Amount
  cost : Option Amount
  comment : Option (List Char)
deriving DecidableEq, Repr

/-- `struct Transaction` (src/parser.rs). -/
structure Transaction where
  header : TransactionHeader
  posting : List Posting
deriving DecidableEq, Repr

/-!
The recognizers of src/parser.rs.
-/

/-- `date_slash`: `digit1 '/' digit1 '/' digit1`. -/
def date_slash : Parser (List Char × List Char × List Char) :=
  pbind digit1 (fun y =>
  pbind (pchar '/') (fun _ =>
  pbind digit1 (fun m =>
  pbind (pchar '/') (fun _ =>
  pmap digit1 (fun d => (y, m, d))))))

/-- `date_dash`: `digit1 '-' digit1 '-' digit1`. -/
def date_dash : Parser (List Char × List Char × List Char) :=
  pbind digit1 (fun y =>
  pbind (pchar '-') (fun _ =>
  pbind digit1 (fun m =>
  pbind (pchar '-') (fun _ =>
  pmap digit1 (fun d => (y, m, d))))))

/-- `date`: `map_res(alt((date_slash, date_dash)), into_naive_date)`.
As in nom with the default error type, `map_res` discards the external
`ParseError` and records `MapRes`; a panic inside the closure propagates. -/
def date : Parser NaiveDate := fun cs =>
  match altP date_slash date_dash cs with
  | .ok rest t =>
    match (RawDate.from_triple t).into_naive_date with
    | .panicked => .panicked
    | .value (.ok d) => .ok rest d
    | .value (.error _) => .err (.nomE .mapRes)
  | .err e => .err e
  | .panicked => .panicked

/-- `status`: `one_of("!*")`, `*` is Cleared and `!` is Pending. -/
def status : Parser Status := fun cs =>
  match one_of ['!', '*'] cs with
  | .ok rest c => .ok rest (if c = '*' then Status.Cleared else Status.Pending)
  | .err e => .err e
  | .panicked => .panicked

/-- `code`: `'(' take_until(")") ')'`. -/
def code : Parser (List Char) :=
  pbind (pchar '(') (fun _ =>
  pbind (take_until_char ')') (fun c =>
  pmap (pchar ')') (fun _ => c)))

/-- `comment`: `';' space0` then everything before the next `'\n'`. -/
def comment : Parser (List Char) :=
  precededP (pbind (pchar ';') (fun _ => space0))
    (take_while (fun c => c != '\n'))

/-- `transaction_header` (src/parser.rs lines 159-180). -/
def transaction_header : Parser TransactionHeader :=
  pbind date (fun d =>
  pbind (popt (precededP (pchar '=') date)) (fun ed =>
  pbind (popt (precededP space1 status)) (fun st =>
  pbind (popt (precededP space1 code)) (fun cd =>
  pbind space1 (fun _ =>
  pbind (take_while (fun c => c != ';' && c != '\n')) (fun desc =>
  pbind (popt comment) (fun cm =>
  pmap (popt (pchar '\n')) (fun _ =>
    { date := d
      edate := ed
      status := st.getD Status.Uncleared
      code := cd
      description := desc
      comment := cm }))))))))

/-- Rust `char::is_ascii_whitespace`. -/
def isAsciiWhitespace (c : Char) : Bool :=
  c = ' ' || c = '\t' || c = '\n' || c = '\x0C' || c = '\r'

/-- `account`: `take_while1(|c| !c.is_ascii_whitespace())`. -/
def account : Parser (List Char) :=
  take_while1 (fun c => !isAsciiWhitespace c) .takeWhile1

/-- `unsigned_decimal`:
`recognize((digit1, many0_count(digit1), opt(('.', digit1))))` — note there
is no comma alternative in the repetition. -/
def unsigned_decimal : Parser (List Char) :=
  recognizeP
    (pbind digit1 (fun _ =>
     pbind (many0_count digit1) (fun _ =>
     pmap (popt (pbind (pchar '.') (fun _ => digit1))) (fun _ => ()))))

/-- `decimal`: `recognize((opt(one_of("+-")), unsigned_decimal))`. -/
def decimal : Parser (List Char) :=
  recognizeP
    (pbind (popt (one_of ['+', '-'])) (fun _ =>
     pmap unsigned_decimal (fun _ => ())))

/-- `is_unit_char`.  Rust `char::is_whitespace` is approximated by its
ASCII fragment, which agrees on every character exercised here. -/
def is_unit_char (c : Char) : Bool :=
  !(c = ' ' || c = '\t' || c = '\n' || c = '\r') &&
    !c.isDigit &&
    !(".,;:?!-+*/^&|=<>[]()\x7b\x7d@".data.contains c)

/-- `unit`: `take_while1(is_unit_char)`. -/
def unit : Parser (List Char) :=
  take_while1 is_unit_char .takeWhile1

/-- `amount_unit`:
`map_res((decimal, opt(preceded(space1, unit))), Amount::from_str)` with
the unit defaulting to the empty string. -/
def amount_unit : Parser Amount := fun cs =>
  match (pbind decimal (fun price =>
         pmap (popt (precededP space1 unit)) (fun u => (price, u)))) cs with
  | .ok rest pu =>
    match Amount.from_str pu.1 (pu.2.getD []) with
    | some a => .ok rest a
    | none => .err (.nomE .mapRes)
  | .err e => .err e
  | .panicked => .panicked

/-- `assign_amount`: `'=' space0 amount_unit`. -/
def assign_amount : Parser Amount :=
  pbind (pchar '=') (fun _ =>
  pbind space0 (fun _ => amount_unit))

/-- `cost`: `'@' space0 amount_unit`. -/
def cost : Parser Amount :=
  precededP (pbind (pchar '@') (fun _ => space0)) amount_unit

/-- `posting_indent`: `alt((tag("  "), tag("\t")))` then `space0`. -/
def posting_indent : Parser (List Char) :=
  precededP (altP (ptag [' ', ' ']) (ptag ['\t'])) space0

/-- `posting` (src/parser.rs lines 248-271).  No unit-consistency check is
performed between `amount`, `assign` and `cost`. -/
def posting : Parser Posting :=
  pbind posting_indent (fun _ =>
  pbind account (fun acc =>
  pbind space0 (fun _ =>
  pbind (popt amount_unit) (fun am =>
  pbind space0 (fun _ =>
  pbind (popt assign_amount) (fun asg =>
  pbind space0 (fun _ =>
  pbind (popt cost) (fun ct =>
  pbind space0 (fun _ =>
  pbind (popt comment) (fun cm =>
  pmap (popt (pchar '\n')) (fun _ =>
    { account := acc
      amount := am
      assign := asg
      cost := ct
      comment := cm })))))))))))

/-- `transaction`: one header then `many1(posting)`. -/
def transaction : Parser Transaction :=
  pbind transaction_header (fun h =>
  pmap (many1P posting) (fun ps => { header := h, posting := ps }))

/-!
The ledger-item driver (src/parser/mod.rs).  The driver calls
`transaction::transaction` from src/parser/transaction.rs, which is not
present under src/; the repository's src/parser.rs snapshot of the same
transaction parser (spec section 2 calls these duplicate historical
snapshots) stands in for it.
-/

/-- `enum LedgerItem` (src/parser/mod.rs). -/
inductive LedgerItem where
  | Transaction : Transaction → LedgerItem
  | Blank : LedgerItem
deriving DecidableEq, Repr

/-- `blank_line`: `recognize((space0, opt(line_ending)))`.  Always
succeeds; consumes nothing when the input starts with a character that is
neither a space, a tab, nor a line terminator. -/
def blank_line : Parser (List Char) :=
  recognizeP (pbind space0 (fun _ => pmap (popt line_ending) (fun _ => ())))

/-- `struct LedgerParser`: the driver's cursor into the input buffer. -/
structure LedgerParser where
  s : List Char
deriving DecidableEq, Repr

def LedgerParser.new (s : List Char) : LedgerParser := ⟨s⟩

/-- `LedgerParser::next` (src/parser/mod.rs lines 31-47): `None` on an empty
buffer; otherwise dispatch on whether the first character is an ASCII
digit and `.unwrap()` the chosen parser's result — a parse failure (or an
inner panic) is a panic of the driver, not an error value. -/
def LedgerParser.next (p : LedgerParser) : PanicOr (Option (LedgerItem × LedgerParser)) :=
  match p.s with
  | [] => .value none
  | c :: _ =>
    if c.isDigit then
      match transaction p.s with
      | .ok remain t => .value (some (.Transaction t, ⟨remain⟩))
      | .err _ => .panicked
      | .panicked => .panicked
    else
      match blank_line p.s with
      | .ok remain _ => .value (some (.Blank, ⟨remain⟩))
      | .err _ => .panicked
      | .panicked => .panicked

/-!
Helper lemmas about the combinators.
-/

lemma takeWhile_cons_false {f : Char → Bool} {y : Char} (ys : List Char)
    (h : f y = false) : (y :: ys).takeWhile f = [] := by
  simp [List.takeWhile_cons, h]

lemma dropWhile_eq_self_of_takeWhile_nil {f : Char → Bool} :
    ∀ {ys : List Char}, ys.takeWhile f = [] → ys.dropWhile f = ys
  | [], _ => rfl
  | y :: ys, h => by
    by_cases hy : f y
    · simp [List.takeWhile_cons, hy] at h
    · simp [List.dropWhile_cons, hy]

lemma takeWhile_append_stop {f : Char → Bool} (xs ys : List Char)
    (hxs : ∀ c ∈ xs, f c = true) (hys : ys.takeWhile f = []) :
    (xs ++ ys).takeWhile f = xs ∧ (xs ++ ys).dropWhile f = ys := by
  induction xs with
  | nil =>
    exact ⟨by simpa using hys, by simpa using dropWhile_eq_self_of_takeWhile_nil hys⟩
  | cons a as ih =>
    have ha : f a = true := hxs a (by simp)
    have ih' := ih (fun c hc => hxs c (by simp [hc]))
    simp [List.takeWhile_cons, List.dropWhile_cons, ha, ih'.1, ih'.2]

lemma take_while1_ok {f : Char → Bool} {k : NomKind} (xs ys : List Char)
    (h1 : xs ≠ []) (h2 : ∀ c ∈ xs, f c = true) (h3 : ys.takeWhile f = []) :
    take_while1 f k (xs ++ ys) = .ok ys xs := by
  obtain ⟨tw, dw⟩ := takeWhile_append_stop xs ys h2 h3
  simp only [take_while1]
  rw [tw, dw]
  cases xs with
  | nil => exact absurd rfl h1
  | cons a as => rfl

lemma take_while1_all_ok {f : Char → Bool} {k : NomKind} (xs : List Char)
    (h1 : xs ≠ []) (h2 : ∀ c ∈ xs, f c = true) :
    take_while1 f k xs = .ok [] xs := by
  have := take_while1_ok (f := f) (k := k) xs [] h1 h2 rfl
  simpa using this

lemma take_while1_err {f : Char → Bool} {k : NomKind} (ys : List Char)
    (h : ys.takeWhile f = []) : take_while1 f k ys = .err (.nomE k) := by
  simp only [take_while1]
  rw [h]

lemma many0_count_of_err {α : Type} {p : Parser α} {cs : List Char} {e : PErr}
    (h : p cs = .err e) : many0_count p cs = .ok cs 0 := by
  simp [many0_count, many0_count_go, h]

lemma take_sub_append (xs ys : List Char) :
    (xs ++ ys).take ((xs ++ ys).length - ys.length) = xs := by
  rw [List.length_append, Nat.add_sub_cancel]
  exact List.take_left xs ys

lemma digit_not_sign {c : Char} (h : c.isDigit = true) :
    c ∉ (['+', '-'] : List Char) := by
  intro hc
  rcases List.mem_cons.mp hc with hc | hc
  · subst hc; exact absurd h (by decide)
  · rcases List.mem_cons.mp hc with hc | hc
    · subst hc; exact absurd h (by decide)
    · simp at hc

/-!
Claim theorems.
-/

/-- C7: the transaction-header parser applied to
`"2020-11-30=2020-12-11 * (#100) Withdraw ; modified\n    Assets"` succeeds
with primary date 2020-11-30, effective date 2020-12-11, status Cleared,
code `"#100"`, description `"Withdraw "` (trailing space retained), comment
`"modified"`, and leaves `"    Assets"` unconsumed. -/
theorem claim_C7_header_full_options :
    transaction_header "2020-11-30=2020-12-11 * (#100) Withdraw ; modified\n    Assets".data =
      .ok "    Assets".data
        { date := ⟨2020, 11, 30⟩
          edate := some ⟨2020, 12, 11⟩
          status := Status.Cleared
          code := some "#100".data
          description := "Withdraw ".data
          comment := some "modified".data } := by
  rfl

/-- C6: contrary to the claim, the posting parser accepts a posting whose
bare amount carries unit `JPY` while its balance assignment carries unit
`EUR`; no DupUnit consistency check is performed (the spec mandates the
check and calls its omission a latent gap). -/
theorem claim_C6_dup_unit_unchecked :
    posting "  Assets 100 JPY = 50 EUR\n".data =
      .ok []
        { account := "Assets".data
          amount := some ⟨⟨false, 100, 0⟩, "JPY".data⟩
          assign := some ⟨⟨false, 50, 0⟩, "EUR".data⟩
          cost := none
          comment := none } := by
  rfl

/-- C10: converting a raw date whose year digit run overflows `i32`
panics (the source unwraps the integer parse), and the panic propagates
through the public `date` entry point instead of an error being returned. -/
theorem claim_C10_overflow_panics :
    (RawDate.from_ymd "99999999999".data "01".data "01".data).into_naive_date =
      PanicOr.panicked ∧
    date "99999999999-01-01".data = .panicked :=
  ⟨rfl, rfl⟩

/-- C1 counterexample: on the input `"1x"`, whose buffer starts with an
ASCII digit but is not a valid transaction, the driver step panics — it
does not return a terminal error value to the caller. -/
theorem claim_C1_counterexample :
    LedgerParser.next ⟨"1x".data⟩ = .panicked := rfl

/-- C1 amended: a driver step on a buffer that starts with an ASCII digit
but on which the transaction parser fails panics (the source unwraps the
parse result); it neither skips the malformed unit nor returns an error
value. -/
theorem claim_C1_amended (c : Char) (cs : List Char) (e : PErr)
    (hd : c.isDigit = true) (ht : transaction (c :: cs) = .err e) :
    LedgerParser.next ⟨c :: cs⟩ = .panicked := by
  simp [LedgerParser.next, hd, ht]

/-- C1 witness: the amended theorem at the concrete input `"2y"`. -/
theorem claim_C1_witness :
    LedgerParser.next ⟨"2y".data⟩ = .panicked :=
  claim_C1_amended '2' "y".data (.nomE .charK) (by decide) (by rfl)

/-- C2 counterexample: a driver step on the non-empty buffer `"a"` yields
`Blank` while consuming no characters (the remainder equals the input), so
steps on a non-empty buffer do not always strictly consume. -/
theorem claim_C2_counterexample :
    LedgerParser.next ⟨"a".data⟩ = .value (some (.Blank, ⟨"a".data⟩)) ∧
    ("a".data ≠ ([] : List Char)) :=
  ⟨rfl, by decide⟩

/-- C2 amended: once the remaining buffer is empty every driver step yields
nothing, and on the input consisting solely of a newline one `Blank` item
is produced consuming the whole buffer; however a step on a non-empty
buffer whose first character is neither an ASCII digit, a space, a tab,
nor part of a line terminator yields `Blank` and consumes nothing, so the
item sequence is not finite for such inputs. -/
theorem claim_C2_amended :
    (∀ p : LedgerParser, p.s = [] → p.next = .value none) ∧
    LedgerParser.next ⟨"\n".data⟩ = .value (some (.Blank, ⟨[]⟩)) ∧
    (∀ c cs, c.isDigit = false → c ≠ ' ' → c ≠ '\t' → c ≠ '\n' → c ≠ '\r' →
      LedgerParser.next ⟨c :: cs⟩ = .value (some (.Blank, ⟨c :: cs⟩))) := by
  refine ⟨?_, rfl, ?_⟩
  · intro p hp
    cases p with
    | mk s => cases hp; rfl
  · intro c cs hd hsp htab hnl hcr
    have hst : isSpaceTab c = false := by simp [isSpaceTab, hsp, htab]
    have htw : (c :: cs).takeWhile isSpaceTab = [] := takeWhile_cons_false cs hst
    have hdw : (c :: cs).dropWhile isSpaceTab = c :: cs :=
      dropWhile_eq_self_of_takeWhile_nil htw
    have hle : line_ending (c :: cs) = .err (.nomE .crlf) := by
      simp [line_ending, hnl, hcr]
    have hbl : blank_line (c :: cs) = .ok (c :: cs) [] := by
      simp [blank_line, recognizeP, pbind, pmap, popt, space0, take_while, htw, hdw, hle]
    simp [LedgerParser.next, hd, hbl]

/-- C2 witness: the amended theorem at the concrete inputs `""` and `"Z"`. -/
theorem claim_C2_witness :
    LedgerParser.next ⟨[]⟩ = .value none ∧
    LedgerParser.next ⟨"Z".data⟩ = .value (some (.Blank, ⟨"Z".data⟩)) :=
  ⟨claim_C2_amended.1 ⟨[]⟩ rfl,
   claim_C2_amended.2.2 'Z' [] (by decide) (by decide) (by decide) (by decide) (by decide)⟩

/-- C4 counterexample: the amount parser rejects the dollar-shorthand input
`"$12.50"` instead of accepting it with unit `"$"`. -/
theorem claim_C4_counterexample :
    amount_unit "$12.50".data = .err (.nomE .digit) := rfl

/-- C4 amended: no parser consumes a `'$'` prefix — the amount parser also
rejects `"-$3"` — while `Amount::dollar` is only an unused constructor that
fixes the unit to `"$"` for an already-matched decimal string. -/
theorem claim_C4_amended :
    amount_unit "-$3".data = .err (.nomE .digit) ∧
    Amount.dollar "12.50".data = some ⟨⟨false, 1250, 2⟩, "$".data⟩ :=
  ⟨rfl, rfl⟩

/-- C3 counterexample: on `"1,000"` the decimal recognizer succeeds but
consumes only `"1"`, leaving the grouping comma and the remaining digits
unconsumed. -/
theorem claim_C3_counterexample :
    decimal "1,000".data = .ok ",000".data "1".data := rfl

/-- C5 counterexample: on `"(a\nb)"`, whose current line contains no
closing parenthesis, the code recognizer does not fail with UnclosedCode:
it succeeds, consuming past the line terminator up to the `')'` on the
next line. -/
theorem claim_C5_counterexample :
    code "(a\nb)".data = .ok [] "a\nb".data := rfl

/-- C9 counterexample: on an indented line with no account token the
posting parser fails with a generic TakeWhile1 error, not with the
MissingAccount error kind. -/
theorem claim_C9_counterexample :
    posting "    \n".data = .err (.nomE .takeWhile1) ∧
    (PErr.nomE .takeWhile1 ≠ PErr.custom ParseError.MissingAccount) :=
  ⟨rfl, by decide⟩

/-- C8 counterexample: on `"abc"`, which matches neither date pattern, the
date recognizer fails with a generic digit error, not with the DateFormat
error kind (DateFormat is never produced anywhere). -/
theorem claim_C8_counterexample :
    date "abc".data = .err (.nomE .digit) ∧
    (PErr.nomE .digit ≠ PErr.custom ParseError.DateFormat) :=
  ⟨rfl, by decide⟩

lemma fromYmdOpt_valid {y : Int} {m d : Nat} {nd : NaiveDate}
    (h : NaiveDate.fromYmdOpt y m d = some nd) : nd.valid := by
  unfold NaiveDate.fromYmdOpt at h
  split at h
  · injection h with h
    subst h
    simpa [NaiveDate.valid] using ‹_›
  · cases h

lemma into_naive_date_valid {r : RawDate} {nd : NaiveDate}
    (h : r.into_naive_date = .value (.ok nd)) : nd.valid := by
  unfold RawDate.into_naive_date at h
  split at h
  · injection h with h
    split at h
    · rename_i heq
      injection h with h
      subst h
      exact fromYmdOpt_valid heq
    · cases h
  · cases h

lemma date_ok_valid {cs rest : List Char} {d : NaiveDate}
    (h : date cs = .ok rest d) : d.valid := by
  unfold date at h
  split at h
  · split at h
    · cases h
    · rename_i heq
      injection h with h1 h2
      subst h2
      exact into_naive_date_valid heq
    · cases h
  · cases h
  · cases h

theorem claim_C8_amended :
    (∀ cs rest d, date cs = PResult.ok rest d → d.valid) ∧
    date "abc".data = .err (.nomE .digit) ∧
    date "2021-02-30".data = .err (.nomE .mapRes) ∧
    (RawDate.from_ymd "2021".data "02".data "30".data).into_naive_date =
      .value (.error ParseError.DateOutOfRange) :=
  ⟨fun _ _ _ h => date_ok_valid h, rfl, rfl, rfl⟩

theorem claim_C8_witness :
    NaiveDate.valid ⟨2021, 12, 23⟩ :=
  claim_C8_amended.1 "2021/12/23".data [] ⟨2021, 12, 23⟩ (by rfl)

theorem claim_C5_amended (pre post : List Char) (hpre : ')' ∉ pre) :
    code ('(' :: (pre ++ ')' :: post)) = .ok post pre ∧
    code "(abc".data = .err (.nomE .takeUntil) := by
  refine ⟨?_, rfl⟩
  have hall : ∀ c ∈ pre, (c != ')') = true := by
    intro c hc
    exact bne_iff_ne.mpr (fun h => hpre (h ▸ hc))
  have htw0 : (')' :: post).takeWhile (· != ')') = [] :=
    takeWhile_cons_false post (by decide)
  obtain ⟨tw, dw⟩ := takeWhile_append_stop pre (')' :: post) hall htw0
  have htu : take_until_char ')' (pre ++ ')' :: post) = .ok (')' :: post) pre := by
    simp only [take_until_char]
    rw [tw, dw]
  simp [code, pbind, pmap, pchar, htu]

theorem claim_C5_witness :
    code ('(' :: ("#100".data ++ ')' :: " tail".data)) = .ok " tail".data "#100".data :=
  (claim_C5_amended "#100".data " tail".data (by decide)).1

theorem claim_C9_amended :
    (∀ c cs, c ≠ ' ' → c ≠ '\t' → posting (c :: cs) = .err (.nomE .tagK)) ∧
    posting "  \n".data = .err (.nomE .takeWhile1) := by
  refine ⟨?_, rfl⟩
  intro c cs hsp htab
  have h1 : (' ' == c) = false := beq_eq_false_iff_ne.mpr (Ne.symm hsp)
  have h2 : ('\t' == c) = false := beq_eq_false_iff_ne.mpr (Ne.symm htab)
  have hp1 : ([' ', ' '] : List Char).isPrefixOf (c :: cs) = false := by
    simp [List.isPrefixOf, h1]
  have hp2 : (['\t'] : List Char).isPrefixOf (c :: cs) = false := by
    simp [List.isPrefixOf, h2]
  simp [posting, posting_indent, precededP, pbind, altP, ptag, hp1, hp2]

theorem claim_C9_witness :
    posting "Assets:Cash".data = .err (.nomE .tagK) :=
  claim_C9_amended.1 'A' "ssets:Cash".data (by decide) (by decide)

lemma unsigned_decimal_frac (ds1 ds2 : List Char)
    (h1 : ds1 ≠ []) (h2 : ∀ c ∈ ds1, c.isDigit = true)
    (h3 : ds2 ≠ []) (h4 : ∀ c ∈ ds2, c.isDigit = true) :
    unsigned_decimal (ds1 ++ '.' :: ds2) = .ok [] (ds1 ++ '.' :: ds2) := by
  have hA : digit1 (ds1 ++ '.' :: ds2) = .ok ('.' :: ds2) ds1 :=
    take_while1_ok ds1 ('.' :: ds2) h1 h2 (takeWhile_cons_false ds2 (by decide))
  have hB : digit1 ('.' :: ds2) = .err (.nomE .digit) :=
    take_while1_err _ (takeWhile_cons_false ds2 (by decide))
  have hC : many0_count digit1 ('.' :: ds2) = .ok ('.' :: ds2) 0 :=
    many0_count_of_err hB
  have hD : digit1 ds2 = .ok [] ds2 := take_while1_all_ok ds2 h3 h4
  simp [unsigned_decimal, recognizeP, pbind, pmap, popt, pchar, hA, hB, hC, hD,
    List.take_succ_cons, List.take_length]

lemma unsigned_decimal_stop (ds rest : List Char)
    (h1 : ds ≠ []) (h2 : ∀ c ∈ ds, c.isDigit = true)
    (h3 : rest.takeWhile Char.isDigit = [])
    (h5 : pchar '.' rest = .err (.nomE .charK)) :
    unsigned_decimal (ds ++ rest) = .ok rest ds := by
  have hA : digit1 (ds ++ rest) = .ok rest ds := take_while1_ok ds rest h1 h2 h3
  have hB : digit1 rest = .err (.nomE .digit) := take_while1_err _ h3
  have hC : many0_count digit1 rest = .ok rest 0 := many0_count_of_err hB
  simp [unsigned_decimal, recognizeP, pbind, pmap, popt, hA, hB, hC, h5, take_sub_append]

theorem claim_C3_amended (ds1 ds2 tl : List Char)
    (h1 : ds1 ≠ []) (h2 : ∀ c ∈ ds1, c.isDigit = true)
    (h3 : ds2 ≠ []) (h4 : ∀ c ∈ ds2, c.isDigit = true) :
    decimal (ds1 ++ '.' :: ds2) = .ok [] (ds1 ++ '.' :: ds2) ∧
    decimal ('-' :: (ds1 ++ '.' :: ds2)) = .ok [] ('-' :: (ds1 ++ '.' :: ds2)) ∧
    decimal (ds1 ++ ',' :: tl) = .ok (',' :: tl) ds1 := by
  obtain ⟨d, ds1', rfl⟩ : ∃ d ds1', ds1 = d :: ds1' := by
    cases ds1 with
    | nil => exact absurd rfl h1
    | cons a as => exact ⟨a, as, rfl⟩
  have hds : d.isDigit = true := h2 d (by simp)
  have hnosign : d ∉ (['+', '-'] : List Char) := digit_not_sign hds
  have hU2 : unsigned_decimal (d :: (ds1' ++ '.' :: ds2)) =
      .ok [] (d :: (ds1' ++ '.' :: ds2)) := by
    simpa using unsigned_decimal_frac (d :: ds1') ds2 h1 h2 h3 h4
  have hU1 : unsigned_decimal (d :: (ds1' ++ ',' :: tl)) = .ok (',' :: tl) (d :: ds1') := by
    simpa using unsigned_decimal_stop (d :: ds1') (',' :: tl) h1 h2
      (takeWhile_cons_false tl (by decide)) (by simp [pchar])
  refine ⟨?_, ?_, ?_⟩
  · simp [decimal, recognizeP, pbind, pmap, popt, one_of, hnosign, hU2,
      List.take_succ_cons, List.take_length]
  · simp [decimal, recognizeP, pbind, pmap, popt, one_of, hU2,
      List.take_succ_cons, List.take_length]
  · simp [decimal, recognizeP, pbind, pmap, popt, one_of, hnosign, hU1]
    have hn : ds1'.length + (tl.length + 1) - tl.length = ds1'.length + 1 := by omega
    rw [hn, List.take_succ_cons, List.take_left]

theorem claim_C3_witness :
    decimal "1.5".data = .ok [] "1.5".data ∧
    decimal "-1.5".data = .ok [] "-1.5".data ∧
    decimal "1,000".data = .ok ",000".data "1".data := by
  have h := claim_C3_amended ['1'] ['5'] "000".data (by decide)
    (by decide) (by decide) (by decide)
  exact ⟨h.1, h.2.1, h.2.2⟩
